import Mathlib

/-!
Shallow embedding of the Jira duplicate-detection repository
(`hybrid_search.py`, `src/user_embedding_pipeline.py`,
`src/firebase_storage_manager.py`, `api_server.py`, `src/user_hybrid_search.py`)
together with proofs settling the frozen claims about it.

Conventions: Python floats are modelled as rationals (`ℚ`), numpy arrays of
embedding vectors as Lean lists over an abstract vector type, fallible steps
(model calls, disk writes, network transfers) as explicit boolean success
flags or `Except`, and mutable on-disk / in-memory state as explicit record
passing.  The bi-encoder, cross-encoder and FAISS searches are black boxes
and appear as universally quantified function parameters.
-/

namespace JiraDup

/-- One insertion step of the stable descending-by-key insertion sort that
models Python's stable `list.sort(key=..., reverse=True)`.  An element `x`
coming from earlier in the original list is inserted after every element of
strictly greater key and before every element of smaller-or-equal key, which
is exactly the order a stable descending sort produces. -/
def insertScoredDesc {α : Type} (key : α → ℚ) (x : α) : List α → List α
  | [] => [x]
  | y :: ys => if key x < key y then y :: insertScoredDesc key x ys else x :: y :: ys

/-- Stable descending sort by a rational key (model of Python's stable
`sort(key=..., reverse=True)`). -/
def sortScoredDesc {α : Type} (key : α → ℚ) : List α → List α
  | [] => []
  | x :: xs => insertScoredDesc key x (sortScoredDesc key xs)

/-- The output order of a stable descending sort: strictly larger key first,
ties resolved by the `pos` annotation (original position). -/
def rankedBefore {α : Type} (key : α → ℚ) (pos : α → ℕ) (a b : α) : Prop :=
  key b < key a ∨ (key a = key b ∧ pos a < pos b)

/-- Python `str.lower()`, modelled characterwise (ASCII lowering, matching
the platform/text values this code base compares). -/
def strLower (s : String) : String := String.mk (s.data.map Char.toLower)

/-! ## `hybrid_search.py` — `HybridSearch` -/

namespace HS

/-- One row of the loaded dataframe, with the columns `HybridSearch.load_data`
guarantees to exist: `Summary`, `Description`, `Application`, `Platform`,
`App Version`, `Language` (nullable), `Priority` (nullable, read via
`row.get`). -/
structure SRow where
  summary : String
  description : String
  application : String
  platform : String
  appVersion : String
  language : Option String
  priority : Option String
  deriving DecidableEq

/-- Helper for `findallNums`: scans the characters, accumulating the digit
run currently being read. -/
def numsAux : List Char → Option Nat → List Nat
  | [], none => []
  | [], some n => [n]
  | c :: cs, none =>
    if c.isDigit then numsAux cs (some (c.toNat - 48)) else numsAux cs none
  | c :: cs, some n =>
    if c.isDigit then numsAux cs (some (n * 10 + (c.toNat - 48))) else n :: numsAux cs none

/-- All maximal decimal digit runs of the string, as numbers — the model of
Python `re.findall(r'\d+', version)` in `HybridSearch._normalize_version`. -/
def findallNums (s : String) : List Nat := numsAux s.data none

/-- `HybridSearch._normalize_version`: first three integer groups of the
version string, padded with zeros; `''`/`'N/A'` (and digit-free strings)
normalize to `(0, 0, 0)`.  (The `isinstance` guard for non-string input is
not representable: every input here is a string.) -/
def normalizeVersion (version : String) : Nat × Nat × Nat :=
  if version = "" ∨ version = "N/A" then (0, 0, 0)
  else
    match (findallNums version).take 3 with
    | [] => (0, 0, 0)
    | [a] => (a, 0, 0)
    | [a, b] => (a, b, 0)
    | a :: b :: c :: _ => (a, b, c)

/-- Absolute difference of two naturals, as a rational (Python `abs(a - b)`
on the parsed version components). -/
def natDist (a b : Nat) : ℚ := ((max a b - min a b : Nat) : ℚ)

/-- `HybridSearch._calculate_version_similarity`. -/
def calcVersionSimilarity (queryVersion resultVersion : String) : ℚ :=
  if queryVersion = "" ∨ queryVersion = "N/A" ∨ resultVersion = "" ∨ resultVersion = "N/A"
  then 0
  else
    let qv := normalizeVersion queryVersion
    let rv := normalizeVersion resultVersion
    if qv = rv then 1
    else if qv.1 = rv.1 ∧ 0 < qv.1 then
      if qv.2.1 = rv.2.1 then 0.9 - natDist qv.2.2 rv.2.2 * 0.05
      else 0.7 - natDist qv.2.1 rv.2.1 * 0.1
    else 0

/-- The columns every loaded dataframe has after `load_data` (the fixed
schema the search code reads). -/
def schemaCols : List String :=
  ["Summary", "Description", "Application", "Platform", "App Version", "Language", "Priority"]

/-- Cell lookup `row[col]`; `none` models a pandas `NaN` (only the nullable
`Language`/`Priority` cells can be missing) and also an absent column. -/
def cell (r : SRow) : String → Option String
  | "Summary" => some r.summary
  | "Description" => some r.description
  | "Application" => some r.application
  | "Platform" => some r.platform
  | "App Version" => some r.appVersion
  | "Language" => r.language
  | "Priority" => r.priority
  | _ => none

/-- Stage 2 column selection: `[col for col in selected_columns if col in
candidate_df.columns]`, falling back to `['Summary']` when empty. -/
def availableColumns (selectedCols : List String) : List String :=
  let avail := selectedCols.filter (fun c => schemaCols.contains c)
  if avail.isEmpty then ["Summary"] else avail

/-- Stage 2 comparison text of one candidate: `' '.join` of the non-null
cells of the available selected columns. -/
def combinedCandText (selectedCols : List String) (r : SRow) : String :=
  String.intercalate " " ((availableColumns selectedCols).filterMap (cell r))

/-- The description shown in a result:
`row['Description'][:200] + '...'` when longer than 200 characters. -/
def truncDescription (d : String) : String :=
  if 200 < d.length then d.take 200 ++ "..." else d

/-- One entry of the list `HybridSearch.search` returns.  `pos` records the
candidate's position in the stage-3 `enumerate` (the order candidates
entered scoring), which is what a stable sort breaks ties by. -/
structure SResult where
  pos : ℕ
  index : ℕ
  summary : String
  description : String
  application : String
  platform : String
  app_version : String
  language : Option String
  priority : String
  cross_encoder_score : ℚ
  version_similarity : ℚ
  platform_similarity : ℚ
  language_similarity : ℚ
  final_score : ℚ
  deriving DecidableEq

/-- Stage 3 of `HybridSearch.search`: the result record built for the
candidate at enumeration position `pos` with dataframe index `idx`. -/
def mkResult (crossEnc : String → String → ℚ) (query : String) (selectedCols : List String)
    (platformF versionF languageF : Option String) (pos idx : ℕ) (r : SRow) : SResult :=
  let cross_score := crossEnc query (combinedCandText selectedCols r)
  let version_similarity : ℚ :=
    match versionF with
    | none => 0
    | some v => calcVersionSimilarity v r.appVersion
  let platform_similarity : ℚ :=
    match platformF with
    | none => 0
    | some p => if r.platform = p then 1 else 0
  let language_similarity : ℚ :=
    match languageF with
    | none => 0
    | some lg => if r.language = some lg then 1 else 0
  { pos := pos
    index := idx
    summary := r.summary
    description := truncDescription r.description
    application := r.application
    platform := r.platform
    app_version := r.appVersion
    language := r.language
    priority := r.priority.getD "Unknown"
    cross_encoder_score := cross_score
    version_similarity := version_similarity
    platform_similarity := platform_similarity
    language_similarity := language_similarity
    final_score := cross_score * 0.70 + version_similarity * 0.15 +
      platform_similarity * 0.10 + language_similarity * 0.05 }

/-- The stage-3 scoring loop `for idx, (df_idx, row) in
enumerate(candidate_df.iterrows())`; the cross-encoder score of position
`idx` is the prediction for that candidate's pair. -/
def scoreCands (crossEnc : String → String → ℚ) (query : String) (selectedCols : List String)
    (platformF versionF languageF : Option String) : ℕ → List (ℕ × SRow) → List SResult
  | _, [] => []
  | pos, (idx, r) :: rest =>
    mkResult crossEnc query selectedCols platformF versionF languageF pos idx r ::
      scoreCands crossEnc query selectedCols platformF versionF languageF (pos + 1) rest

/-- The dataframe with its index labels (`df.index` is `0..n-1` and pandas
filters keep the original labels). -/
def labeled (df : List SRow) : List (ℕ × SRow) := df.enum

/-- `self.df['Language'].notna().any()`. -/
def anyLanguage (df : List SRow) : Bool := df.any (fun r => r.language.isSome)

/-- `if application: filtered_df = filtered_df[filtered_df['Application'] ==
application]`. -/
def filterApplication (applicationF : Option String) (l : List (ℕ × SRow)) :
    List (ℕ × SRow) :=
  match applicationF with
  | none => l
  | some a => l.filter (fun p => p.2.application == a)

/-- `if language and self.df['Language'].notna().any(): ... ==
language`. -/
def filterLanguage (languageF : Option String) (anyLang : Bool) (l : List (ℕ × SRow)) :
    List (ℕ × SRow) :=
  match languageF with
  | none => l
  | some lg => if anyLang then l.filter (fun p => p.2.language == some lg) else l

/-- The rows of one platform partition after the application/language
filters, with their dataframe labels (`platform_df` in the source). -/
def platformPairs (df : List SRow) (applicationF languageF : Option String) (p : String) :
    List (ℕ × SRow) :=
  filterLanguage languageF (anyLanguage df)
    (filterApplication applicationF ((labeled df).filter (fun q => q.2.platform == p)))

/-- Stage-1 candidate retrieval across all platform indices (the branch with
no usable platform filter): each partition contributes
`n_candidates // len(faiss_indices)` hits, merged, sorted by FAISS score and
truncated to `n_candidates`.  `faissSearch p k` abstracts
`index.search(query_embedding, k)` for platform `p` as an arbitrary list of
(position-in-partition, score) pairs; positions out of range are dropped by
the `i < len(platform_indices)` guard, here `pp.get?`. -/
def allPlatformCandidates (df : List SRow) (faissIndices : List String)
    (faissSearch : String → ℕ → List (ℕ × ℚ)) (applicationF languageF : Option String)
    (nCandidates : ℕ) : List (ℕ × SRow) :=
  let allCands := faissIndices.flatMap (fun plat =>
    let pp := platformPairs df applicationF languageF plat
    if pp.isEmpty then []
    else
      let k := min (nCandidates / faissIndices.length) pp.length
      (faissSearch plat k).filterMap (fun q => (pp.get? q.1).map (fun c => (c, q.2))))
  ((sortScoredDesc (fun c => c.2) allCands).take nCandidates).map (fun c => c.1)

/-- Stage 1 of `HybridSearch.search`: the candidate rows (with dataframe
labels) that proceed to the cross-encoder. -/
def candidates (df : List SRow) (faissIndices : List String)
    (faissSearch : String → ℕ → List (ℕ × ℚ))
    (applicationF platformF languageF : Option String) (nCandidates : ℕ) :
    List (ℕ × SRow) :=
  let filtered := filterLanguage languageF (anyLanguage df)
    (filterApplication applicationF (labeled df))
  if filtered.isEmpty then []
  else
    match platformF with
    | some p =>
      if faissIndices.contains p then
        let pp := platformPairs df applicationF languageF p
        if pp.isEmpty then []
        else
          let k := min nCandidates pp.length
          ((faissSearch p k).map (fun q => q.1)).filterMap (fun i => pp.get? i)
      else
        allPlatformCandidates df faissIndices faissSearch applicationF languageF nCandidates
    | none => allPlatformCandidates df faissIndices faissSearch applicationF languageF nCandidates

/-- `HybridSearch.search`: stage-1 retrieval, stage-2 cross-encoder scoring,
stage-3 fusion, stable descending sort on `final_score`, truncation to
`top_k`. -/
def search (df : List SRow) (faissIndices : List String)
    (faissSearch : String → ℕ → List (ℕ × ℚ)) (crossEnc : String → String → ℚ)
    (query : String) (applicationF platformF versionF languageF : Option String)
    (top_k nCandidates : ℕ) (selectedColsOpt : Option (List String)) : List SResult :=
  let selectedCols := selectedColsOpt.getD ["Summary", "Description"]
  let cands := candidates df faissIndices faissSearch applicationF platformF languageF
    nCandidates
  let results := scoreCands crossEnc query selectedCols platformF versionF languageF 0 cands
  (sortScoredDesc (fun r => r.final_score) results).take top_k

/-- Concrete one-row dataframe used to instantiate the search theorems. -/
def wRow : SRow :=
  { summary := "app crashes on login"
    description := "crash at login"
    application := "BiP"
    platform := "android"
    appVersion := "3.70.19"
    language := some "tr"
    priority := some "High" }

/-- A concrete FAISS search result used to instantiate the search theorems:
the (only) partition vector is the best hit. -/
def wFaissSearch : String → ℕ → List (ℕ × ℚ) := fun _ _ => [(0, 1)]

/-- A concrete cross-encoder used to instantiate the search theorems. -/
def wCrossEnc : String → String → ℚ := fun _ _ => 1

end HS

/-! ## `src/firebase_storage_manager.py` — `FirebaseStorageManager` -/

namespace FSM

/-- The artifact set transferred by `upload_user_artifacts` /
`download_user_artifacts`. -/
def artifactFiles : List String :=
  ["embeddings.npy", "faiss_index.bin", "metadata.json", "data.csv"]

/-- The files `check_artifacts_exist` requires remotely. -/
def essentialFiles : List String := ["embeddings.npy", "faiss_index.bin", "metadata.json"]

/-- `upload_user_artifacts`: uploads every artifact file present in the
local directory (missing files are skipped with a warning) and returns
`uploaded_count > 0`. -/
def uploadUserArtifacts (initialized : Bool) (localFiles : List String) : Bool :=
  if !initialized then false
  else 0 < artifactFiles.countP (fun f => localFiles.contains f)

/-- Number of artifact files present remotely (those are the ones
`download_user_artifacts` actually downloads; absent ones are skipped). -/
def downloadCount (remoteFiles : List String) : ℕ :=
  artifactFiles.countP (fun f => remoteFiles.contains f)

/-- `download_user_artifacts`: returns true only when
`downloaded_count == len(files_to_download)`; a partial download (and an
empty one) returns false. -/
def downloadUserArtifacts (initialized : Bool) (remoteFiles : List String) : Bool :=
  if !initialized then false
  else downloadCount remoteFiles == artifactFiles.length

/-- `check_artifacts_exist`: all three essential files exist remotely. -/
def checkArtifactsExist (initialized : Bool) (remoteFiles : List String) : Bool :=
  if !initialized then false
  else essentialFiles.all (fun f => remoteFiles.contains f)

end FSM

/-! ## `src/user_embedding_pipeline.py` — `UserEmbeddingPipeline` -/

namespace UEP

/-- The uploaded tabular dataset: column names plus one cell function per
row (a `none` cell models pandas `NaN`, i.e. `pd.notna` is false). -/
structure DFrame where
  cols : List String
  rows : List (String → Option String)

/-- The combined text of one row in `create_embeddings`: join the non-null
cells of the configured text columns with `'. '`, strip, lowercase, and
substitute `'empty'` for an empty result. -/
def combineText (df : DFrame) (textColumns : List String) (row : String → Option String) :
    String :=
  let parts := textColumns.filterMap (fun col => if df.cols.contains col then row col else none)
  let combined := strLower (String.intercalate ". " parts).trim
  if combined = "" then "empty" else combined

/-- `UserEmbeddingPipeline.create_embeddings` (the array it returns and
writes to `embeddings.npy`): one embedding per dataframe row, in row
order.  `embed` abstracts the sentence-transformer. -/
def createEmbeddings {Vec : Type} (embed : String → Vec) (df : DFrame)
    (textColumns : List String) : List Vec :=
  df.rows.map (fun row => embed (combineText df textColumns row))

/-- A `faiss.IndexFlatIP`: the vectors added to it; `ntotal` is their
count. -/
structure FaissIndexIP (Vec : Type) where
  vectors : List Vec
  deriving DecidableEq

def FaissIndexIP.ntotal {Vec : Type} (idx : FaissIndexIP Vec) : ℕ := idx.vectors.length

/-- `UserEmbeddingPipeline.create_faiss_index`: L2-normalize each row
(`normalizeRow` abstracts the division by the row norm, which is
row-wise and so length-preserving by construction) and add them all. -/
def createFaissIndex {Vec : Type} (normalizeRow : Vec → Vec) (embeddings : List Vec) :
    FaissIndexIP Vec :=
  ⟨embeddings.map normalizeRow⟩

/-- The parts of `metadata.json` the claims depend on
(`num_records = len(df)` and the text columns used). -/
structure PipelineMeta where
  num_records : ℕ
  text_columns : List String
  deriving DecidableEq

/-- The tenant's local artifact directory: `embeddings.npy`,
`faiss_index.index`, `metadata.json` (each `none` when the file does not
exist). -/
structure LocalArtifacts (Vec : Type) where
  embeddings_file : Option (List Vec)
  index_file : Option (List Vec)
  metadata_file : Option PipelineMeta
  deriving DecidableEq

/-- Which fallible steps of `UserEmbeddingPipeline.process` succeed:
the embedding model call, the `np.save` of the embeddings, the FAISS index
construction, the `faiss.write_index`, and the metadata write.  (The
Firebase upload at the end returns a boolean and never raises, so it cannot
fail the pipeline.) -/
structure BuildEnv where
  encode_ok : Bool
  save_embeddings_ok : Bool
  build_index_ok : Bool
  save_index_ok : Bool
  save_metadata_ok : Bool
  deriving DecidableEq

/-- Effect of `download_user_artifacts` on the local directory: every
artifact file present remotely is written locally (also on a download that
is reported failed because it was partial). -/
def applyDownload {Vec : Type} (remoteFiles : List String)
    (remoteArtifacts : LocalArtifacts Vec) (fs : LocalArtifacts Vec) : LocalArtifacts Vec :=
  { embeddings_file :=
      if remoteFiles.contains "embeddings.npy" then remoteArtifacts.embeddings_file
      else fs.embeddings_file
    index_file :=
      if remoteFiles.contains "faiss_index.bin" then remoteArtifacts.index_file
      else fs.index_file
    metadata_file :=
      if remoteFiles.contains "metadata.json" then remoteArtifacts.metadata_file
      else fs.metadata_file }

/-- The generation half of `process` (steps after the cache check):
`create_embeddings` (which saves `embeddings.npy` as soon as the encoding
is done), `create_faiss_index`, `save_metadata`.  A failing step raises,
which `process` catches and turns into `False`, leaving the files written
so far in place.  Returns (success, local artifacts, number of texts the
embedder was asked to encode). -/
def generatePhase {Vec : Type} (env : BuildEnv) (normalizeRow : Vec → Vec)
    (embed : String → Vec) (df : DFrame) (textColumns : List String)
    (fs : LocalArtifacts Vec) : Bool × LocalArtifacts Vec × ℕ :=
  let n := df.rows.length
  if !env.encode_ok then (false, fs, n)
  else
    let embeddings := createEmbeddings embed df textColumns
    if !env.save_embeddings_ok then (false, fs, n)
    else
      let fs1 := { fs with embeddings_file := some embeddings }
      if !env.build_index_ok then (false, fs1, n)
      else
        let index := createFaissIndex normalizeRow embeddings
        if !env.save_index_ok then (false, fs1, n)
        else
          let fs2 := { fs1 with index_file := some index.vectors }
          if !env.save_metadata_ok then (false, fs2, n)
          else (true, { fs2 with metadata_file := some ⟨df.rows.length, textColumns⟩ }, n)

/-- `UserEmbeddingPipeline.process`: Firebase cache check and download
first (a full download returns success immediately, skipping generation),
then the generation phase.  Returns (success, local artifacts, number of
texts the embedder was asked to encode). -/
def process {Vec : Type} (useFirebaseCache smInitialized : Bool) (remoteFiles : List String)
    (remoteArtifacts : LocalArtifacts Vec) (env : BuildEnv) (normalizeRow : Vec → Vec)
    (embed : String → Vec) (df : DFrame) (textColumns : List String)
    (fs : LocalArtifacts Vec) : Bool × LocalArtifacts Vec × ℕ :=
  if useFirebaseCache && smInitialized && FSM.checkArtifactsExist smInitialized remoteFiles
  then
    if FSM.downloadUserArtifacts smInitialized remoteFiles then
      (true, applyDownload remoteFiles remoteArtifacts fs, 0)
    else
      generatePhase env normalizeRow embed df textColumns
        (applyDownload remoteFiles remoteArtifacts fs)
  else generatePhase env normalizeRow embed df textColumns fs

/-- A tenant directory holding the artifacts of an earlier successful
build (for the build-failure scenario). -/
def oldArtifacts : LocalArtifacts ℕ := ⟨some [1], some [1], some ⟨1, ["Summary"]⟩⟩

/-- An environment in which the FAISS index construction raises, after the
embedding call and the `np.save` of `embeddings.npy` succeeded. -/
def failingBuildEnv : BuildEnv := ⟨true, true, false, true, true⟩

/-- A two-row dataset (for the build-failure scenario). -/
def twoRowFrame : DFrame := ⟨["Summary"], [fun _ => some "a", fun _ => some "b"]⟩

/-- A one-row dataset (for witnesses). -/
def oneRowFrame : DFrame := ⟨["Summary"], [fun _ => some "hello"]⟩

/-- An environment in which every pipeline step succeeds. -/
def allOkBuildEnv : BuildEnv := ⟨true, true, true, true, true⟩

end UEP

/-! ## `api_server.py` — `update_embeddings_for_new_report` -/

namespace API

/-- Which fallible steps of `update_embeddings_for_new_report` succeed:
the bi-encoder call on the new text, the `np.save` of the grown embedding
array, the `index.add`, and the `faiss.write_index`. -/
structure AppendEnv where
  encode_ok : Bool
  save_embeddings_ok : Bool
  index_add_ok : Bool
  write_index_ok : Bool
  deriving DecidableEq

/-- `platform = str(new_row.get('Platform', 'unknown')).lower()` followed by
the membership check against `['android', 'ios', 'unknown']`. -/
def normalizePlatform (p : String) : String :=
  let lp := strLower p
  if lp = "android" ∨ lp = "ios" ∨ lp = "unknown" then lp else "unknown"

/-- Lookup in the platform-keyed FAISS index dictionary. -/
def getIndex {Vec : Type} (p : String) (l : List (String × List Vec)) :
    Option (List Vec) :=
  match l.find? (fun e => e.1 == p) with
  | none => none
  | some e => some e.2

/-- Insert-or-replace in a platform-keyed dictionary. -/
def setIndex {Vec : Type} (p : String) (v : List Vec) :
    List (String × List Vec) → List (String × List Vec)
  | [] => [(p, v)]
  | e :: rest => if e.1 == p then (p, v) :: rest else e :: setIndex p v rest

/-- The state `update_embeddings_for_new_report` manipulates: the reloaded
dataframe length, the `embeddings.npy` file, the in-memory
`search_system.embeddings`, and the in-memory and on-disk platform FAISS
indices (each index is the list of vectors added to it). -/
structure SearchSystemState (Vec : Type) where
  df_len : ℕ
  embeddings_file : Option (List Vec)
  embeddings_mem : Option (List Vec)
  indices_mem : List (String × List Vec)
  indices_file : List (String × List Vec)
  deriving DecidableEq

/-- `update_embeddings_for_new_report`.  The first component is `false`
exactly when the Python function raises (the `except` block re-raises);
note that the invalid-index, missing-embeddings-file and
missing-platform-index paths return normally (`true`) after only a log
message. -/
def updateEmbeddingsForNewReport {Vec : Type} (env : AppendEnv) (newRowIndex : ℕ)
    (newRowPlatform : String) (newEmbedding : Vec) (normalizeRow : Vec → Vec)
    (st : SearchSystemState Vec) : Bool × SearchSystemState Vec :=
  if st.df_len ≤ newRowIndex then (true, st)
  else if !env.encode_ok then (false, st)
  else
    match st.embeddings_file with
    | none => (true, st)
    | some existing =>
      if !env.save_embeddings_ok then (false, st)
      else
        let updated := existing ++ [newEmbedding]
        let st1 := { st with embeddings_file := some updated, embeddings_mem := some updated }
        let p := normalizePlatform newRowPlatform
        match getIndex p st1.indices_mem with
        | none => (true, st1)
        | some vecs =>
          if !env.index_add_ok then (false, st1)
          else
            let st2 := { st1 with
              indices_mem := setIndex p (vecs ++ [normalizeRow newEmbedding]) st1.indices_mem }
            if !env.write_index_ok then (false, st2)
            else
              (true, { st2 with
                indices_file := setIndex p (vecs ++ [normalizeRow newEmbedding]) st2.indices_file })

/-- A consistent pre-append state: one stored vector, aligned array and
index, but no FAISS index for the `ios` platform. -/
def appendState0 : SearchSystemState ℕ :=
  ⟨2, some [10], some [10], [("android", [10])], [("android", [10])]⟩

/-- An environment in which every append step succeeds. -/
def allOkAppendEnv : AppendEnv := ⟨true, true, true, true⟩

end API

/-! ## `src/user_hybrid_search.py` — `UserHybridSearch` -/

namespace UHS

/-- The fallible collaborators of `UserHybridSearch.search`: model loading,
`load_user_data` (which itself catches all exceptions and returns a
boolean; `some textColumns` models a successful load carrying
`metadata['text_columns']`), the query encoding, the FAISS search (whose
result rows are (score, index) pairs), and the cross-encoder prediction. -/
structure UEnv where
  load_models_ok : Bool
  load_user_data : Option (List String)
  encode_ok : Bool
  faiss_ok : Bool
  faiss_search : ℕ → List (ℚ × ℕ)
  cross_ok : Bool
  cross_scores : String → String → ℚ

/-- One entry of the list `UserHybridSearch.search` returns (the fixed
fields; the row's own cells are carried in `row`). -/
structure UResult where
  index : ℕ
  final_score : ℚ
  cross_encoder_score : ℚ
  faiss_score : ℚ
  version_similarity : ℚ
  platform_match : Bool
  language_match : Bool
  row : List (String × String)
  deriving DecidableEq

/-- `str(candidate['row'].get(text_col, ''))`. -/
def lookupCell (textCol : String) (row : List (String × String)) : String :=
  match row.find? (fun e => e.1 == textCol) with
  | some e => e.2
  | none => ""

/-- The body of `UserHybridSearch.search` inside its `try`; `.error ()`
marks a raised exception. -/
def uSearchBody (env : UEnv) (query : String) (df : List (List (String × String)))
    (dfCols : List String) (top_k rerank_k : ℕ) : Except Unit (List UResult) :=
  if !env.load_models_ok then .error ()
  else
    match env.load_user_data with
    | none => .ok []
    | some text_columns =>
      if !env.encode_ok then .error ()
      else if !env.faiss_ok then .error ()
      else
        let cands := (env.faiss_search rerank_k).filterMap (fun sr =>
          (df.get? sr.2).map (fun row => (sr.1, sr.2, row)))
        if cands.isEmpty then .ok []
        else if !env.cross_ok then .error ()
        else
          match text_columns.head?.orElse (fun _ => dfCols.head?) with
          | none => .error ()
          | some text_col =>
            let scored := cands.map (fun c =>
              (c, env.cross_scores query (lookupCell text_col c.2.2)))
            .ok (((sortScoredDesc (fun c => c.2) scored).take top_k).map (fun c =>
              { index := c.1.2.1
                final_score := c.2
                cross_encoder_score := c.2
                faiss_score := c.1.1
                version_similarity := 1
                platform_match := true
                language_match := true
                row := c.1.2.2 }))

/-- `UserHybridSearch.search`: the whole body is wrapped in
`try ... except: return []`, so the function is total and every internal
failure surfaces as the empty list. -/
def userSearch (env : UEnv) (query : String) (df : List (List (String × String)))
    (dfCols : List String) (top_k rerank_k : ℕ) : List UResult :=
  match uSearchBody env query df dfCols top_k rerank_k with
  | .ok rs => rs
  | .error _ => []

/-- A concrete environment in which `load_user_data` fails (missing
artifacts) while everything else works. -/
def wUEnv : UEnv :=
  ⟨true, none, true, true, fun _ => [(1, 0)], true, fun _ _ => 1⟩

end UHS

/-! # Theorems -/

theorem perm_insertScoredDesc {α : Type} (key : α → ℚ) (x : α) (l : List α) :
    List.Perm (insertScoredDesc key x l) (x :: l) := by
  induction l with
  | nil => rfl
  | cons y ys ih =>
    by_cases h : key x < key y
    · simpa [insertScoredDesc, h] using (ih.cons y).trans (List.Perm.swap x y ys)
    · simp [insertScoredDesc, h]

theorem perm_sortScoredDesc {α : Type} (key : α → ℚ) (l : List α) :
    List.Perm (sortScoredDesc key l) l := by
  induction l with
  | nil => rfl
  | cons x xs ih => exact (perm_insertScoredDesc key x _).trans (ih.cons x)

theorem mem_sortScoredDesc {α : Type} (key : α → ℚ) (l : List α) (a : α) :
    a ∈ sortScoredDesc key l ↔ a ∈ l :=
  (perm_sortScoredDesc key l).mem_iff

theorem pairwise_insertScoredDesc {α : Type} (key : α → ℚ) (pos : α → ℕ) (x : α)
    (l : List α) (hl : l.Pairwise (rankedBefore key pos))
    (hx : ∀ y ∈ l, pos x < pos y) :
    (insertScoredDesc key x l).Pairwise (rankedBefore key pos) := by
  induction l with
  | nil => simp [insertScoredDesc, rankedBefore]
  | cons y ys ih =>
    rcases List.pairwise_cons.mp hl with ⟨hy, hys⟩
    by_cases h : key x < key y
    · simp only [insertScoredDesc, if_pos h]
      refine List.pairwise_cons.mpr ⟨?_, ih hys (fun z hz => hx z (List.mem_cons_of_mem y hz))⟩
      intro z hz
      have hz' : z ∈ x :: ys := (perm_insertScoredDesc key x ys).mem_iff.mp hz
      rcases List.mem_cons.mp hz' with hzx | hzys
      · exact Or.inl (hzx ▸ h)
      · exact hy z hzys
    · simp only [insertScoredDesc, if_neg h]
      have hyx : key y ≤ key x := le_of_not_lt h
      refine List.pairwise_cons.mpr ⟨?_, hl⟩
      intro z hz
      rcases List.mem_cons.mp hz with hzy | hzys
      · subst hzy
        rcases lt_or_eq_of_le hyx with hlt | heq
        · exact Or.inl hlt
        · exact Or.inr ⟨heq.symm, hx z (List.mem_cons_self z ys)⟩
      · rcases hy z hzys with hlt | ⟨heq, _⟩
        · exact Or.inl (lt_of_lt_of_le hlt hyx)
        · rcases lt_or_eq_of_le (heq ▸ hyx) with hlt | heq'
          · exact Or.inl hlt
          · exact Or.inr ⟨heq'.symm, hx z (List.mem_cons_of_mem y hzys)⟩

theorem pairwise_sortScoredDesc {α : Type} (key : α → ℚ) (pos : α → ℕ) (l : List α)
    (h : l.Pairwise (fun a b => pos a < pos b)) :
    (sortScoredDesc key l).Pairwise (rankedBefore key pos) := by
  induction l with
  | nil => simp [sortScoredDesc]
  | cons x xs ih =>
    rcases List.pairwise_cons.mp h with ⟨hx, hxs⟩
    refine pairwise_insertScoredDesc key pos x _ (ih hxs) ?_
    intro y hy
    exact hx y ((perm_sortScoredDesc key xs).mem_iff.mp hy)

namespace HS

/-- Once the empty/`'N/A'` guard is passed,
`_calculate_version_similarity` branches only on the two normalized
triples. -/
theorem version_sim_branches (q r : String)
    (hg : ¬(q = "" ∨ q = "N/A" ∨ r = "" ∨ r = "N/A")) :
    calcVersionSimilarity q r =
      if normalizeVersion q = normalizeVersion r then 1
      else if (normalizeVersion q).1 = (normalizeVersion r).1 ∧
          0 < (normalizeVersion q).1 then
        if (normalizeVersion q).2.1 = (normalizeVersion r).2.1 then
          0.9 - natDist (normalizeVersion q).2.2 (normalizeVersion r).2.2 * 0.05
        else 0.7 - natDist (normalizeVersion q).2.1 (normalizeVersion r).2.1 * 0.1
      else 0 := by
  unfold calcVersionSimilarity
  rw [if_neg hg]

/-- Claim C3, counterexample: the claim states that unparseable input gives
similarity 0.0, but `_calculate_version_similarity("abc", "def")` returns
1.0 — both strings pass the `''`/`'N/A'` guard, both normalize to
`(0, 0, 0)`, and the exact-equality branch fires before any parse-failure
check. -/
theorem version_similarity_unparseable_cex :
    calcVersionSimilarity "abc" "def" = 1 ∧ calcVersionSimilarity "abc" "def" ≠ 0 :=
  ⟨by decide, by decide⟩

/-- Claim C3, amended: the spec's five boundary values hold, parsing takes
the first three integer groups (missing groups treated as 0), and the
general rule holds with one correction: a non-empty, non-`'N/A'` string
with no digits also normalizes to `(0, 0, 0)`, and equality of the two
normalized triples is checked first, so two unparseable inputs (or any two
inputs normalizing to the same triple) score 1.0 rather than 0.0; the
0.9/0.7 formulas and the 0.0 case for differing-or-zero major apply only
when the normalized triples differ. -/
theorem version_similarity_characterization :
    calcVersionSimilarity "3.70.19" "3.70.19" = 1 ∧
    calcVersionSimilarity "3.70.19" "3.70.20" = 0.85 ∧
    calcVersionSimilarity "3.70.19" "3.71.0" = 0.6 ∧
    calcVersionSimilarity "4.0.0" "3.70.19" = 0 ∧
    calcVersionSimilarity "" "3.70.19" = 0 ∧
    normalizeVersion "3.70.19" = (3, 70, 19) ∧
    normalizeVersion "3.70" = (3, 70, 0) ∧
    normalizeVersion "abc" = (0, 0, 0) ∧
    (∀ q r, (q = "" ∨ q = "N/A" ∨ r = "" ∨ r = "N/A") → calcVersionSimilarity q r = 0) ∧
    (∀ q r, ¬(q = "" ∨ q = "N/A" ∨ r = "" ∨ r = "N/A") →
      normalizeVersion q = normalizeVersion r → calcVersionSimilarity q r = 1) ∧
    (∀ q r, ¬(q = "" ∨ q = "N/A" ∨ r = "" ∨ r = "N/A") →
      (normalizeVersion q).1 = (normalizeVersion r).1 → 0 < (normalizeVersion q).1 →
      (normalizeVersion q).2.1 = (normalizeVersion r).2.1 →
      (normalizeVersion q).2.2 ≠ (normalizeVersion r).2.2 →
      calcVersionSimilarity q r =
        0.9 - natDist (normalizeVersion q).2.2 (normalizeVersion r).2.2 * 0.05) ∧
    (∀ q r, ¬(q = "" ∨ q = "N/A" ∨ r = "" ∨ r = "N/A") →
      (normalizeVersion q).1 = (normalizeVersion r).1 → 0 < (normalizeVersion q).1 →
      (normalizeVersion q).2.1 ≠ (normalizeVersion r).2.1 →
      calcVersionSimilarity q r =
        0.7 - natDist (normalizeVersion q).2.1 (normalizeVersion r).2.1 * 0.1) ∧
    (∀ q r, ¬(q = "" ∨ q = "N/A" ∨ r = "" ∨ r = "N/A") →
      normalizeVersion q ≠ normalizeVersion r →
      ((normalizeVersion q).1 ≠ (normalizeVersion r).1 ∨ (normalizeVersion q).1 = 0) →
      calcVersionSimilarity q r = 0) := by
  refine ⟨by decide, ?_, ?_, by decide, by decide, by decide, by decide, by decide,
    ?_, ?_, ?_, ?_, ?_⟩
  · rw [version_sim_branches _ _ (by decide),
      show normalizeVersion "3.70.19" = (3, 70, 19) from by decide,
      show normalizeVersion "3.70.20" = (3, 70, 20) from by decide,
      if_neg (by decide), if_pos (by decide), if_pos (by decide)]
    norm_num [natDist]
  · rw [version_sim_branches _ _ (by decide),
      show normalizeVersion "3.70.19" = (3, 70, 19) from by decide,
      show normalizeVersion "3.71.0" = (3, 71, 0) from by decide,
      if_neg (by decide), if_pos (by decide), if_neg (by decide)]
    norm_num [natDist]
  · intro q r hg
    unfold calcVersionSimilarity
    rw [if_pos hg]
  · intro q r hg heq
    rw [version_sim_branches q r hg, if_pos heq]
  · intro q r hg hmaj hpos hminor hpatch
    have hne : normalizeVersion q ≠ normalizeVersion r := by
      intro h
      exact hpatch (by rw [h])
    rw [version_sim_branches q r hg, if_neg hne, if_pos ⟨hmaj, hpos⟩, if_pos hminor]
  · intro q r hg hmaj hpos hminor
    have hne : normalizeVersion q ≠ normalizeVersion r := by
      intro h
      exact hminor (by rw [h])
    rw [version_sim_branches q r hg, if_neg hne, if_pos ⟨hmaj, hpos⟩, if_neg hminor]
  · intro q r hg hne hmaj
    rw [version_sim_branches q r hg, if_neg hne, if_neg ?_]
    rintro ⟨h1, h2⟩
    rcases hmaj with h | h
    · exact h h1
    · rw [h] at h2
      exact absurd h2 (by decide)

/-- Claim C3, witness: the amended patch-difference formula applied at
`("2.5.7", "2.5.9")`, giving `0.9 − 2·0.05 = 0.8`. -/
theorem version_similarity_characterization_witness :
    calcVersionSimilarity "2.5.7" "2.5.9" = 0.8 := by
  obtain ⟨-, -, -, -, -, -, -, -, -, -, h11, -, -⟩ := version_similarity_characterization
  have h := h11 "2.5.7" "2.5.9" (by decide) (by decide) (by decide) (by decide) (by decide)
  rw [h, show (normalizeVersion "2.5.7").2.2 = 7 from by decide,
    show (normalizeVersion "2.5.9").2.2 = 9 from by decide]
  norm_num [natDist]

/-- Claim C9: the 0.9 − 0.05·|patch diff| and 0.7 − 0.10·|minor diff|
subtractions in `_calculate_version_similarity` are not clamped at 0, so
any pair with equal nonzero major and equal minor whose patches differ by
at least 19, or with equal nonzero major whose minors differ by at least 8,
gets a strictly negative similarity. -/
theorem version_similarity_unclamped_negative (q r : String)
    (hg : ¬(q = "" ∨ q = "N/A" ∨ r = "" ∨ r = "N/A"))
    (hmaj : (normalizeVersion q).1 = (normalizeVersion r).1)
    (hpos : 0 < (normalizeVersion q).1)
    (hcase : ((normalizeVersion q).2.1 = (normalizeVersion r).2.1 ∧
        19 ≤ max (normalizeVersion q).2.2 (normalizeVersion r).2.2 -
          min (normalizeVersion q).2.2 (normalizeVersion r).2.2) ∨
      8 ≤ max (normalizeVersion q).2.1 (normalizeVersion r).2.1 -
        min (normalizeVersion q).2.1 (normalizeVersion r).2.1) :
    calcVersionSimilarity q r < 0 := by
  rw [version_sim_branches q r hg]
  rcases hcase with ⟨hminor, hpatch⟩ | hminor
  · have hne : normalizeVersion q ≠ normalizeVersion r := by
      intro h
      rw [h] at hpatch
      simp at hpatch
    rw [if_neg hne, if_pos ⟨hmaj, hpos⟩, if_pos hminor]
    have hd : (19 : ℚ) ≤ natDist (normalizeVersion q).2.2 (normalizeVersion r).2.2 := by
      unfold natDist
      exact_mod_cast hpatch
    linarith
  · have hminor' : (normalizeVersion q).2.1 ≠ (normalizeVersion r).2.1 := by
      intro h
      rw [h] at hminor
      simp at hminor
    have hne : normalizeVersion q ≠ normalizeVersion r := by
      intro h
      exact hminor' (by rw [h])
    rw [if_neg hne, if_pos ⟨hmaj, hpos⟩, if_neg hminor']
    have hd : (8 : ℚ) ≤ natDist (normalizeVersion q).2.1 (normalizeVersion r).2.1 := by
      unfold natDist
      exact_mod_cast hminor
    linarith

/-- Claim C9, witness: `versionSimilarity("1.0.0", "1.0.19") < 0` (patch
difference 19) and `versionSimilarity("1.8.0", "1.0.0") < 0` (minor
difference 8). -/
theorem version_similarity_unclamped_negative_witness :
    calcVersionSimilarity "1.0.0" "1.0.19" < 0 ∧ calcVersionSimilarity "1.8.0" "1.0.0" < 0 :=
  ⟨version_similarity_unclamped_negative "1.0.0" "1.0.19" (by decide) (by decide) (by decide)
      (Or.inl ⟨by decide, by decide⟩),
    version_similarity_unclamped_negative "1.8.0" "1.0.0" (by decide) (by decide) (by decide)
      (Or.inr (by decide))⟩

theorem mem_scoreCands (crossEnc : String → String → ℚ) (query : String)
    (selectedCols : List String) (platformF versionF languageF : Option String)
    (pos : ℕ) (cands : List (ℕ × SRow)) (x : SResult)
    (hx : x ∈ scoreCands crossEnc query selectedCols platformF versionF languageF pos cands) :
    ∃ p idx r, (idx, r) ∈ cands ∧
      x = mkResult crossEnc query selectedCols platformF versionF languageF p idx r := by
  induction cands generalizing pos with
  | nil => simp [scoreCands] at hx
  | cons c rest ih =>
    obtain ⟨idx, r⟩ := c
    simp only [scoreCands] at hx
    rcases List.mem_cons.mp hx with h | h
    · exact ⟨pos, idx, r, List.mem_cons_self _ _, h⟩
    · obtain ⟨p, idx2, r2, hmem, hEq⟩ := ih (pos + 1) h
      exact ⟨p, idx2, r2, List.mem_cons_of_mem _ hmem, hEq⟩

theorem pos_le_mem_scoreCands (crossEnc : String → String → ℚ) (query : String)
    (selectedCols : List String) (platformF versionF languageF : Option String)
    (pos : ℕ) (cands : List (ℕ × SRow)) (x : SResult)
    (hx : x ∈ scoreCands crossEnc query selectedCols platformF versionF languageF pos cands) :
    pos ≤ x.pos := by
  induction cands generalizing pos with
  | nil => simp [scoreCands] at hx
  | cons c rest ih =>
    obtain ⟨idx, r⟩ := c
    simp only [scoreCands] at hx
    rcases List.mem_cons.mp hx with h | h
    · subst h
      exact Nat.le_refl pos
    · exact Nat.le_trans (Nat.le_succ pos) (ih (pos + 1) h)

theorem pairwise_pos_scoreCands (crossEnc : String → String → ℚ) (query : String)
    (selectedCols : List String) (platformF versionF languageF : Option String)
    (pos : ℕ) (cands : List (ℕ × SRow)) :
    (scoreCands crossEnc query selectedCols platformF versionF languageF pos cands).Pairwise
      (fun a b => a.pos < b.pos) := by
  induction cands generalizing pos with
  | nil => simp [scoreCands]
  | cons c rest ih =>
    obtain ⟨idx, r⟩ := c
    simp only [scoreCands]
    refine List.pairwise_cons.mpr ⟨?_, ih (pos + 1)⟩
    intro b hb
    exact Nat.lt_of_lt_of_le (Nat.lt_succ_self pos)
      (pos_le_mem_scoreCands crossEnc query selectedCols platformF versionF languageF
        (pos + 1) rest b hb)

theorem mem_filterLanguage (languageF : Option String) (anyLang : Bool)
    (l : List (ℕ × SRow)) (x : ℕ × SRow) (hx : x ∈ filterLanguage languageF anyLang l) :
    x ∈ l := by
  unfold filterLanguage at hx
  cases languageF with
  | none => exact hx
  | some lg =>
    cases anyLang with
    | false => exact hx
    | true =>
      have hx2 : x ∈ List.filter (fun p => p.2.language == some lg) l := hx
      exact List.mem_of_mem_filter hx2

theorem application_of_mem_filterApplication (a : String) (l : List (ℕ × SRow))
    (x : ℕ × SRow) (hx : x ∈ filterApplication (some a) l) : x.2.application = a := by
  have hx2 : x ∈ List.filter (fun p => p.2.application == a) l := hx
  have hbeq := (List.mem_filter.mp hx2).2
  exact eq_of_beq hbeq

theorem application_of_mem_platformPairs (df : List SRow) (a : String)
    (languageF : Option String) (p : String) (x : ℕ × SRow)
    (hx : x ∈ platformPairs df (some a) languageF p) : x.2.application = a :=
  application_of_mem_filterApplication a _ x
    (mem_filterLanguage languageF (anyLanguage df) _ x hx)

theorem mem_allPlatformCandidates_application (df : List SRow) (faissIndices : List String)
    (faissSearch : String → ℕ → List (ℕ × ℚ)) (a : String) (languageF : Option String)
    (nCandidates : ℕ) (x : ℕ × SRow)
    (hx : x ∈ allPlatformCandidates df faissIndices faissSearch (some a) languageF
      nCandidates) :
    x.2.application = a := by
  simp only [allPlatformCandidates] at hx
  obtain ⟨c, hc, rfl⟩ := List.mem_map.mp hx
  have hc3 := (mem_sortScoredDesc _ _ _).mp (List.take_subset _ _ hc)
  obtain ⟨plat, _hplat, hcontrib⟩ := List.mem_flatMap.mp hc3
  split at hcontrib
  · simp at hcontrib
  · obtain ⟨q, _hq, hsome⟩ := List.mem_filterMap.mp hcontrib
    obtain ⟨c0, hget, hmk⟩ := Option.map_eq_some'.mp hsome
    have hc0 : c0 ∈ platformPairs df (some a) languageF plat := List.get?_mem hget
    have := application_of_mem_platformPairs df a languageF plat c0 hc0
    rw [← hmk]
    exact this

theorem mem_candidates_application (df : List SRow) (faissIndices : List String)
    (faissSearch : String → ℕ → List (ℕ × ℚ)) (a : String)
    (platformF languageF : Option String) (nCandidates : ℕ) (x : ℕ × SRow)
    (hx : x ∈ candidates df faissIndices faissSearch (some a) platformF languageF
      nCandidates) :
    x.2.application = a := by
  simp only [candidates] at hx
  split at hx
  · simp at hx
  · split at hx
    · split at hx
      · split at hx
        · simp at hx
        · obtain ⟨i, _hi, hget⟩ := List.mem_filterMap.mp hx
          exact application_of_mem_platformPairs df a languageF _ x (List.get?_mem hget)
      · exact mem_allPlatformCandidates_application df faissIndices faissSearch a languageF
          nCandidates x hx
    · exact mem_allPlatformCandidates_application df faissIndices faissSearch a languageF
        nCandidates x hx

/-- Claim C4: with an application filter set, every result of
`HybridSearch.search` carries exactly the filtered application value — for
any dataframe, any FAISS behaviour (the filters restrict the candidate
universe before the `n_candidates` truncation, so this holds regardless of
what the index returns and how small the matching universe is). -/
theorem search_application_filter_pushdown (df : List SRow) (faissIndices : List String)
    (faissSearch : String → ℕ → List (ℕ × ℚ)) (crossEnc : String → String → ℚ)
    (query : String) (a : String) (platformF versionF languageF : Option String)
    (top_k nCandidates : ℕ) (selectedColsOpt : Option (List String)) :
    ∀ r ∈ search df faissIndices faissSearch crossEnc query (some a) platformF versionF
        languageF top_k nCandidates selectedColsOpt,
      r.application = a := by
  intro r hr
  simp only [search] at hr
  have hr2 := (mem_sortScoredDesc _ _ _).mp (List.take_subset _ _ hr)
  obtain ⟨p, idx, row, hmem, rfl⟩ := mem_scoreCands _ _ _ _ _ _ _ _ _ hr2
  exact mem_candidates_application df faissIndices faissSearch a platformF languageF
    nCandidates (idx, row) hmem

/-- Claim C4, witness: a one-row universe matching the `BiP` filter, with
the result's application equal to the filter value. -/
theorem search_application_filter_pushdown_witness :
    (mkResult wCrossEnc "login crash" ["Summary", "Description"] (some "android")
      (some "3.70.19") (some "tr") 0 0 wRow).application = "BiP" :=
  search_application_filter_pushdown [wRow] ["android"] wFaissSearch wCrossEnc "login crash"
    "BiP" (some "android") (some "3.70.19") (some "tr") 10 200 none
    (mkResult wCrossEnc "login crash" ["Summary", "Description"] (some "android")
      (some "3.70.19") (some "tr") 0 0 wRow)
    (List.mem_singleton.mpr rfl)

/-- Claim C2: every result of `HybridSearch.search` has
`final_score = 0.70·crossEncoderScore + 0.15·versionSimilarity +
0.10·platformMatch + 0.05·languageMatch`, where the platform match is 1
exactly when a platform filter is given and equals the candidate's
platform, and the language match is 1 exactly when a language filter is
given and equals the candidate's non-null language; the returned list is
sorted by descending `final_score` with ties broken by the candidates'
original enumeration order (Python's sort is stable), and its length is at
most `top_k`. -/
theorem search_score_fusion_sorted_topk (df : List SRow) (faissIndices : List String)
    (faissSearch : String → ℕ → List (ℕ × ℚ)) (crossEnc : String → String → ℚ)
    (query : String) (applicationF platformF versionF languageF : Option String)
    (top_k nCandidates : ℕ) (selectedColsOpt : Option (List String)) :
    (∀ r ∈ search df faissIndices faissSearch crossEnc query applicationF platformF
        versionF languageF top_k nCandidates selectedColsOpt,
      r.final_score = 0.70 * r.cross_encoder_score + 0.15 * r.version_similarity +
          0.10 * r.platform_similarity + 0.05 * r.language_similarity ∧
      r.platform_similarity = (if platformF = some r.platform then (1 : ℚ) else 0) ∧
      r.language_similarity =
        (if languageF ≠ none ∧ r.language = languageF then (1 : ℚ) else 0)) ∧
    (search df faissIndices faissSearch crossEnc query applicationF platformF versionF
        languageF top_k nCandidates selectedColsOpt).Pairwise
      (rankedBefore (fun r => r.final_score) (fun r => r.pos)) ∧
    (search df faissIndices faissSearch crossEnc query applicationF platformF versionF
        languageF top_k nCandidates selectedColsOpt).length ≤ top_k := by
  refine ⟨?_, ?_, ?_⟩
  · intro r hr
    simp only [search] at hr
    have hr2 := (mem_sortScoredDesc _ _ _).mp (List.take_subset _ _ hr)
    obtain ⟨p, idx, row, _hmem, rfl⟩ := mem_scoreCands _ _ _ _ _ _ _ _ _ hr2
    refine ⟨?_, ?_, ?_⟩
    · simp only [mkResult]
      ring
    · cases platformF with
      | none => simp [mkResult]
      | some pf =>
        by_cases hp : row.platform = pf
        · subst hp
          simp [mkResult]
        · simp only [mkResult]
          rw [if_neg hp, if_neg (fun hcc => hp (Option.some.inj hcc).symm)]
    · cases languageF with
      | none => simp [mkResult]
      | some lg =>
        by_cases hl : row.language = some lg
        · simp only [mkResult]
          rw [if_pos hl, if_pos ⟨Option.some_ne_none lg, hl⟩]
        · simp only [mkResult]
          rw [if_neg hl, if_neg (fun hcc => hl hcc.2)]
  · simp only [search]
    exact List.Pairwise.sublist (List.take_sublist _ _)
      (pairwise_sortScoredDesc _ _ _
        (pairwise_pos_scoreCands crossEnc query _ platformF versionF languageF 0 _))
  · simp only [search]
    exact List.length_take_le _ _

/-- Claim C2, witness: the fusion formula, match indicators, order
invariant and `top_k` bound at a concrete one-candidate search. -/
theorem search_score_fusion_sorted_topk_witness :
    (mkResult wCrossEnc "login crash" ["Summary", "Description"] (some "android")
        (some "3.70.19") (some "tr") 0 0 wRow).final_score =
      0.70 * (mkResult wCrossEnc "login crash" ["Summary", "Description"] (some "android")
          (some "3.70.19") (some "tr") 0 0 wRow).cross_encoder_score +
      0.15 * (mkResult wCrossEnc "login crash" ["Summary", "Description"] (some "android")
          (some "3.70.19") (some "tr") 0 0 wRow).version_similarity +
      0.10 * (mkResult wCrossEnc "login crash" ["Summary", "Description"] (some "android")
          (some "3.70.19") (some "tr") 0 0 wRow).platform_similarity +
      0.05 * (mkResult wCrossEnc "login crash" ["Summary", "Description"] (some "android")
          (some "3.70.19") (some "tr") 0 0 wRow).language_similarity :=
  ((search_score_fusion_sorted_topk [wRow] ["android"] wFaissSearch wCrossEnc "login crash"
      (some "BiP") (some "android") (some "3.70.19") (some "tr") 10 200 none).1
    (mkResult wCrossEnc "login crash" ["Summary", "Description"] (some "android")
      (some "3.70.19") (some "tr") 0 0 wRow)
    (List.mem_singleton.mpr rfl)).1

end HS

namespace FSM

/-- Claim C8, counterexample: with Firebase initialized and a local
directory containing only `embeddings.npy`, `upload_user_artifacts`
transfers 1 of the 4 artifact files and still returns `True`
(`uploaded_count > 0`), so a partial upload is reported as success. -/
theorem upload_partial_success_cex :
    uploadUserArtifacts true ["embeddings.npy"] = true ∧
    artifactFiles.countP (fun f => (["embeddings.npy"] : List String).contains f) = 1 ∧
    artifactFiles.length = 4 :=
  ⟨by decide, by decide, by decide⟩

/-- Claim C8, amended: `download_user_artifacts` returns `True` exactly
when all four artifact files were transferred (a partial download is
failure), but `upload_user_artifacts` returns `True` exactly when at least
one artifact file was transferred — for uploads, a partial transfer is
reported as success, not failure. -/
theorem storage_transfer_semantics :
    (∀ (initialized : Bool) (remoteFiles : List String),
      downloadUserArtifacts initialized remoteFiles = true ↔
        initialized = true ∧ ∀ f ∈ artifactFiles, remoteFiles.contains f = true) ∧
    (∀ (initialized : Bool) (localFiles : List String),
      uploadUserArtifacts initialized localFiles = true ↔
        initialized = true ∧ ∃ f ∈ artifactFiles, localFiles.contains f = true) := by
  constructor
  · intro initialized remoteFiles
    cases initialized with
    | false => simp [downloadUserArtifacts]
    | true =>
      simp only [downloadUserArtifacts, downloadCount, Bool.not_true, Bool.false_eq_true,
        if_false, beq_iff_eq, true_and]
      exact List.countP_eq_length
  · intro initialized localFiles
    cases initialized with
    | false => simp [uploadUserArtifacts]
    | true =>
      simp only [uploadUserArtifacts, Bool.not_true, Bool.false_eq_true, if_false,
        decide_eq_true_eq, true_and]
      exact List.countP_pos_iff

/-- Claim C8, witness: downloading with all four artifact files present
remotely is reported as success. -/
theorem storage_transfer_semantics_witness :
    downloadUserArtifacts true artifactFiles = true :=
  (storage_transfer_semantics.1 true artifactFiles).mpr ⟨rfl, by decide⟩

end FSM

namespace UEP

/-- When the generation phase reports success, every step ran: the artifact
directory holds the freshly generated embeddings, the index over them, and
the metadata, and the embedder was asked for one text per row. -/
theorem generatePhase_success {Vec : Type} (env : BuildEnv) (normalizeRow : Vec → Vec)
    (embed : String → Vec) (df : DFrame) (textColumns : List String)
    (fs : LocalArtifacts Vec)
    (h : (generatePhase env normalizeRow embed df textColumns fs).1 = true) :
    generatePhase env normalizeRow embed df textColumns fs =
      (true,
        ⟨some (createEmbeddings embed df textColumns),
          some ((createEmbeddings embed df textColumns).map normalizeRow),
          some ⟨df.rows.length, textColumns⟩⟩,
        df.rows.length) := by
  obtain ⟨e1, e2, e3, e4, e5⟩ := env
  cases e1 <;> cases e2 <;> cases e3 <;> cases e4 <;> cases e5 <;>
    simp_all [generatePhase, createFaissIndex]

/-- When `process` reports a nonzero number of embedded texts, it went
through the generation phase (started from some local directory state). -/
theorem process_eq_generatePhase {Vec : Type} (useFirebaseCache smInitialized : Bool)
    (remoteFiles : List String) (remoteArtifacts : LocalArtifacts Vec) (env : BuildEnv)
    (normalizeRow : Vec → Vec) (embed : String → Vec) (df : DFrame)
    (textColumns : List String) (fs : LocalArtifacts Vec)
    (hgen : (process useFirebaseCache smInitialized remoteFiles remoteArtifacts env
        normalizeRow embed df textColumns fs).2.2 ≠ 0) :
    ∃ fs0, process useFirebaseCache smInitialized remoteFiles remoteArtifacts env
        normalizeRow embed df textColumns fs =
      generatePhase env normalizeRow embed df textColumns fs0 := by
  unfold process at hgen ⊢
  by_cases hc : (useFirebaseCache && smInitialized &&
      FSM.checkArtifactsExist smInitialized remoteFiles) = true
  · rw [if_pos hc] at hgen ⊢
    by_cases hd : FSM.downloadUserArtifacts smInitialized remoteFiles = true
    · rw [if_pos hd] at hgen
      exact absurd rfl hgen
    · rw [if_neg hd]
      exact ⟨applyDownload remoteFiles remoteArtifacts fs, rfl⟩
  · rw [if_neg hc]
    exact ⟨fs, rfl⟩

/-- Claim C1: whenever `UserEmbeddingPipeline.process` succeeds on the
generation path (a cache miss, i.e. `create_embeddings` followed by
`create_faiss_index`) over a dataset with at least one row, the stored
embedding array has exactly one vector per dataset row and the FAISS index
built over it has `ntotal` equal to that same count (and the recorded
metadata record count agrees). -/
theorem process_alignment_invariant {Vec : Type} (useFirebaseCache smInitialized : Bool)
    (remoteFiles : List String) (remoteArtifacts : LocalArtifacts Vec) (env : BuildEnv)
    (normalizeRow : Vec → Vec) (embed : String → Vec) (df : DFrame)
    (textColumns : List String) (fs : LocalArtifacts Vec)
    (_hrows : 1 ≤ df.rows.length)
    (hsuccess : (process useFirebaseCache smInitialized remoteFiles remoteArtifacts env
        normalizeRow embed df textColumns fs).1 = true)
    (hgen : (process useFirebaseCache smInitialized remoteFiles remoteArtifacts env
        normalizeRow embed df textColumns fs).2.2 ≠ 0) :
    ∃ embeddings indexVectors,
      (process useFirebaseCache smInitialized remoteFiles remoteArtifacts env
          normalizeRow embed df textColumns fs).2.1.embeddings_file = some embeddings ∧
      (process useFirebaseCache smInitialized remoteFiles remoteArtifacts env
          normalizeRow embed df textColumns fs).2.1.index_file = some indexVectors ∧
      embeddings = createEmbeddings embed df textColumns ∧
      embeddings.length = df.rows.length ∧
      indexVectors.length = embeddings.length ∧
      (createFaissIndex normalizeRow embeddings).ntotal = df.rows.length ∧
      (process useFirebaseCache smInitialized remoteFiles remoteArtifacts env
          normalizeRow embed df textColumns fs).2.1.metadata_file =
        some ⟨df.rows.length, textColumns⟩ := by
  obtain ⟨fs0, heq⟩ := process_eq_generatePhase useFirebaseCache smInitialized remoteFiles
    remoteArtifacts env normalizeRow embed df textColumns fs hgen
  rw [heq] at hsuccess ⊢
  rw [generatePhase_success env normalizeRow embed df textColumns fs0 hsuccess]
  refine ⟨createEmbeddings embed df textColumns,
    (createEmbeddings embed df textColumns).map normalizeRow, rfl, rfl, rfl, ?_, ?_, ?_, rfl⟩
  · simp [createEmbeddings]
  · simp
  · simp [createFaissIndex, FaissIndexIP.ntotal, createEmbeddings]

/-- Claim C1, witness: a successful cache-less build over a one-row dataset
(embedder modelled as a constant) satisfies the alignment invariant. -/
theorem process_alignment_invariant_witness :
    ∃ embeddings indexVectors,
      (process false false [] (⟨none, none, none⟩ : LocalArtifacts ℕ) allOkBuildEnv
          (fun v => v) (fun _ => 0) oneRowFrame ["Summary"]
          ⟨none, none, none⟩).2.1.embeddings_file = some embeddings ∧
      (process false false [] (⟨none, none, none⟩ : LocalArtifacts ℕ) allOkBuildEnv
          (fun v => v) (fun _ => 0) oneRowFrame ["Summary"]
          ⟨none, none, none⟩).2.1.index_file = some indexVectors ∧
      embeddings = createEmbeddings (fun _ => 0) oneRowFrame ["Summary"] ∧
      embeddings.length = oneRowFrame.rows.length ∧
      indexVectors.length = embeddings.length ∧
      (createFaissIndex (fun v => v) embeddings).ntotal = oneRowFrame.rows.length ∧
      (process false false [] (⟨none, none, none⟩ : LocalArtifacts ℕ) allOkBuildEnv
          (fun v => v) (fun _ => 0) oneRowFrame ["Summary"]
          ⟨none, none, none⟩).2.1.metadata_file =
        some ⟨oneRowFrame.rows.length, ["Summary"]⟩ :=
  process_alignment_invariant false false [] ⟨none, none, none⟩ allOkBuildEnv
    (fun v => v) (fun _ => 0) oneRowFrame ["Summary"] ⟨none, none, none⟩
    (by decide) (by decide) (by decide)

/-- Claim C5 (the code violates it): starting from a tenant directory with
a consistent artifact set from an earlier build (`oldArtifacts`), a rebuild
over a two-row dataset in which the FAISS index construction fails — after
`create_embeddings` already wrote `embeddings.npy` — reports failure but
leaves the directory with the *new* embeddings file next to the *old*
index and metadata: the prior state is partially overwritten. -/
theorem process_build_failure_partial_overwrite :
    (process false false [] (⟨none, none, none⟩ : LocalArtifacts ℕ) failingBuildEnv
        (fun v => v) (fun _ => 5) twoRowFrame ["Summary"] oldArtifacts).1 = false ∧
    (process false false [] (⟨none, none, none⟩ : LocalArtifacts ℕ) failingBuildEnv
        (fun v => v) (fun _ => 5) twoRowFrame ["Summary"] oldArtifacts).2.1.embeddings_file =
      some [5, 5] ∧
    (process false false [] (⟨none, none, none⟩ : LocalArtifacts ℕ) failingBuildEnv
        (fun v => v) (fun _ => 5) twoRowFrame ["Summary"] oldArtifacts).2.1.embeddings_file ≠
      oldArtifacts.embeddings_file ∧
    (process false false [] (⟨none, none, none⟩ : LocalArtifacts ℕ) failingBuildEnv
        (fun v => v) (fun _ => 5) twoRowFrame ["Summary"] oldArtifacts).2.1.index_file =
      oldArtifacts.index_file ∧
    (process false false [] (⟨none, none, none⟩ : LocalArtifacts ℕ) failingBuildEnv
        (fun v => v) (fun _ => 5) twoRowFrame ["Summary"] oldArtifacts).2.1.metadata_file =
      oldArtifacts.metadata_file := by
  refine ⟨?_, ?_, ?_, ?_, ?_⟩ <;> decide

/-- Claim C7: with the Firebase cache enabled and initialized, when all
four artifact files exist remotely (so `check_artifacts_exist` is true and
the download fully succeeds), `process` returns success immediately after
the download and the embedder is asked to encode zero texts — the second
build over an unchanged remote artifact set is a pure download. -/
theorem process_cache_hit_pure_download {Vec : Type} (remoteFiles : List String)
    (remoteArtifacts : LocalArtifacts Vec) (env : BuildEnv) (normalizeRow : Vec → Vec)
    (embed : String → Vec) (df : DFrame) (textColumns : List String)
    (fs : LocalArtifacts Vec)
    (hremote : ∀ f ∈ FSM.artifactFiles, remoteFiles.contains f = true) :
    process true true remoteFiles remoteArtifacts env normalizeRow embed df textColumns fs =
      (true, applyDownload remoteFiles remoteArtifacts fs, 0) := by
  have hcheck : FSM.checkArtifactsExist true remoteFiles = true := by
    simp only [FSM.checkArtifactsExist, Bool.not_true, Bool.false_eq_true, if_false,
      List.all_eq_true]
    intro f hf
    apply hremote
    fin_cases hf <;> decide
  have hdl : FSM.downloadUserArtifacts true remoteFiles = true := by
    simp only [FSM.downloadUserArtifacts, FSM.downloadCount, Bool.not_true,
      Bool.false_eq_true, if_false, beq_iff_eq]
    exact List.countP_eq_length.mpr hremote
  unfold process
  rw [hcheck, hdl]
  simp

/-- Claim C7, witness: a concrete remote store holding exactly the four
artifact files produces a successful pure-download build with zero
embedder calls. -/
theorem process_cache_hit_pure_download_witness :
    process true true FSM.artifactFiles
        (⟨some [7], some [7], some ⟨1, ["Summary"]⟩⟩ : LocalArtifacts ℕ) allOkBuildEnv
        (fun v => v) (fun _ => 0) oneRowFrame ["Summary"] ⟨none, none, none⟩ =
      (true,
        applyDownload FSM.artifactFiles ⟨some [7], some [7], some ⟨1, ["Summary"]⟩⟩
          ⟨none, none, none⟩,
        0) :=
  process_cache_hit_pure_download FSM.artifactFiles _ allOkBuildEnv (fun v => v)
    (fun _ => 0) oneRowFrame ["Summary"] ⟨none, none, none⟩ (by decide)

end UEP

namespace API

/-- Claim C6 (the code violates it): appending a report whose platform
(`'iOS'`, normalized `'ios'`) has no FAISS index, on a tenant whose index
exists for `'android'` only, grows `embeddings.npy` (and the in-memory
array) by the new vector, leaves every FAISS index untouched, and returns
normally — the persisted vector array and the index end up mutually
inconsistent without the append being reported as failed. -/
theorem append_missing_platform_index_inconsistency :
    (updateEmbeddingsForNewReport allOkAppendEnv 1 "iOS" 20 (fun v => v) appendState0).1 =
      true ∧
    (updateEmbeddingsForNewReport allOkAppendEnv 1 "iOS" 20 (fun v => v)
        appendState0).2.embeddings_file = some [10, 20] ∧
    (updateEmbeddingsForNewReport allOkAppendEnv 1 "iOS" 20 (fun v => v)
        appendState0).2.embeddings_file ≠ appendState0.embeddings_file ∧
    (updateEmbeddingsForNewReport allOkAppendEnv 1 "iOS" 20 (fun v => v)
        appendState0).2.indices_mem = appendState0.indices_mem ∧
    (updateEmbeddingsForNewReport allOkAppendEnv 1 "iOS" 20 (fun v => v)
        appendState0).2.indices_file = appendState0.indices_file := by
  refine ⟨?_, ?_, ?_, ?_, ?_⟩ <;> decide

end API

namespace UHS

/-- Claim C10: `UserHybridSearch.search` never lets an exception reach its
caller — the whole body is wrapped in `try ... except: return []` — so if
the user's artifacts cannot be loaded (`load_user_data` returns false) or
any internal step (model loading, query encoding, FAISS search,
cross-encoder scoring) raises, or the dataframe is empty (a zero-match
universe), the result is the empty list: an internal failure is
indistinguishable from a search over an empty universe. -/
theorem userSearch_internal_failure_empty (env : UEnv) (query : String)
    (df : List (List (String × String))) (dfCols : List String) (top_k rerank_k : ℕ)
    (h : env.load_models_ok = false ∨ env.load_user_data = none ∨ env.encode_ok = false ∨
      env.faiss_ok = false ∨ env.cross_ok = false ∨ df = []) :
    userSearch env query df dfCols top_k rerank_k = [] := by
  have hb : uSearchBody env query df dfCols top_k rerank_k = .ok [] ∨
      uSearchBody env query df dfCols top_k rerank_k = .error () := by
    unfold uSearchBody
    rcases h with h | h | h | h | h | h
    · simp only [h, Bool.not_false, eq_self_iff_true, if_true]
      exact Or.inr trivial
    · cases hm : env.load_models_ok <;>
        simp only [h, hm, Bool.not_true, Bool.not_false, Bool.false_eq_true,
          eq_self_iff_true, if_true, if_false] <;>
        first
          | exact Or.inl trivial
          | exact Or.inr trivial
    · cases hm : env.load_models_ok <;> cases hu : env.load_user_data <;>
        simp only [h, hm, hu, Bool.not_true, Bool.not_false, Bool.false_eq_true,
          eq_self_iff_true, if_true, if_false] <;>
        first
          | exact Or.inl trivial
          | exact Or.inr trivial
    · cases hm : env.load_models_ok <;> cases hu : env.load_user_data <;>
        cases he : env.encode_ok <;>
        simp only [h, hm, hu, he, Bool.not_true, Bool.not_false, Bool.false_eq_true,
          eq_self_iff_true, if_true, if_false] <;>
        first
          | exact Or.inl trivial
          | exact Or.inr trivial
    · cases hm : env.load_models_ok <;> cases hu : env.load_user_data <;>
        cases he : env.encode_ok <;> cases hf : env.faiss_ok <;>
        simp only [h, hm, hu, he, hf, Bool.not_true, Bool.not_false, Bool.false_eq_true,
          eq_self_iff_true, if_true, if_false] <;>
        first
          | exact Or.inl trivial
          | exact Or.inr trivial
          | (split <;> first | exact Or.inl rfl | exact Or.inr rfl)
    · subst h
      cases hm : env.load_models_ok <;> cases hu : env.load_user_data <;>
        cases he : env.encode_ok <;> cases hf : env.faiss_ok <;>
        cases hc : env.cross_ok <;>
        simp only [hm, hu, he, hf, hc, Bool.not_true, Bool.not_false, Bool.false_eq_true,
          eq_self_iff_true, if_true, if_false] <;>
        first
          | exact Or.inl trivial
          | exact Or.inr trivial
          | (split <;> first | exact Or.inl rfl | exact Or.inr rfl)
          | (rw [List.filterMap_eq_nil_iff.mpr (fun sr _ => by simp)]
             exact Or.inl rfl)
  unfold userSearch
  rcases hb with hb | hb <;> rw [hb]

/-- Claim C10, witness: with missing user artifacts (`load_user_data`
fails) the search returns the empty list. -/
theorem userSearch_internal_failure_empty_witness :
    userSearch wUEnv "query text" [[("Summary", "s")]] ["Summary"] 10 50 = [] :=
  userSearch_internal_failure_empty wUEnv "query text" [[("Summary", "s")]] ["Summary"]
    10 50 (Or.inr (Or.inl rfl))

end UHS

end JiraDup
